import Mathlib

/-!
Verification of the Mini-Agent LLM client layer (`mini_agent/llm/anthropic_client.py`,
`mini_agent/llm/llm_wrapper.py`, `mini_agent/schema/schema.py`).

The Python values travelling through the client (message contents, tool
argument mappings, wire payloads) are JSON-shaped; they are embedded as the
inductive `JValue`.  Python `dict`s are association lists in insertion order.
Python truthiness (`if msg.thinking:`, `if msg.content:`, ...) is embedded by
explicit truthiness functions on the corresponding types.
-/

/-- JSON-shaped Python value: `None`, booleans, integers, strings, lists and
dicts (association lists in insertion order). -/
inductive JValue where
  | null : JValue
  | bool (b : Bool) : JValue
  | num (n : Int) : JValue
  | str (s : String) : JValue
  | arr (xs : List JValue) : JValue
  | obj (fields : List (String × JValue)) : JValue

/-- Python truthiness of a `JValue` (`bool(x)`): `None`, `False`, `0`, `""`,
`[]` and `\x7b\x7d` are falsy, everything else truthy. -/
def JValue.truthy : JValue → Bool
  | .null => false
  | .bool b => b
  | .num n => n != 0
  | .str s => s != ""
  | .arr xs => !xs.isEmpty
  | .obj fields => !fields.isEmpty

/-- Python truthiness of a `str | None` field: `None` and `""` are falsy. -/
def optStrTruthy : Option String → Bool
  | none => false
  | some s => s != ""

/-- Python truthiness of a `list | None` field: `None` and `[]` are falsy. -/
def optListTruthy {α : Type} : Option (List α) → Bool
  | none => false
  | some l => !l.isEmpty

/-- `schema.FunctionCall`: `name: str`, `arguments: dict[str, Any]`. -/
structure FunctionCall where
  name : String
  arguments : List (String × JValue)

/-- `schema.ToolCall`: `id: str`, `type: str` (always "function"),
`function: FunctionCall`. -/
structure ToolCall where
  id : String
  type : String
  function : FunctionCall

/-- `schema.Message`.  `content` is `str | list[dict]`, embedded as a `JValue`
(a `.str` or `.arr` for schema-valid instances). -/
structure Message where
  role : String
  content : JValue
  thinking : Option String := none
  tool_calls : Option (List ToolCall) := none
  tool_call_id : Option String := none
  name : Option String := none

/-- `schema.TokenUsage`. -/
structure TokenUsage where
  prompt_tokens : Nat
  completion_tokens : Nat
  total_tokens : Nat

/-- `schema.LLMResponse`. -/
structure LLMResponse where
  content : String
  thinking : Option String
  tool_calls : Option (List ToolCall)
  finish_reason : String
  usage : Option TokenUsage

/-! ## `AnthropicClient.convert_tools`

The `tools` argument is `list[Any]`; each element is either a plain `dict`
(passed through), an object with a `to_schema` attribute (its `to_schema()`
result is taken — e.g. `tools.base.Tool`), or anything else, on which the
code raises `TypeError(f"Unsupported tool type: \x7btype(tool)\x7d")`. -/

/-- A value passed in the `tools` list, as the closed set of cases the code
distinguishes: a plain `dict`, an object exposing `to_schema()` (carrying its
Python type name and the schema `to_schema()` returns), or any other value
(carrying its Python type name). -/
inductive ToolValue where
  | dict (schema : List (String × JValue)) : ToolValue
  | exportable (typeName : String) (schema : List (String × JValue)) : ToolValue
  | other (typeName : String) : ToolValue

/-- The Python type name of a `ToolValue` (what `type(tool)` shows). -/
def ToolValue.typeName : ToolValue → String
  | .dict _ => "dict"
  | .exportable n _ => n
  | .other n => n

/-- Errors raised by the client code. -/
inductive ClientError where
  | unsupportedToolType (typeName : String) : ClientError

/-- `AnthropicClient.convert_tools`: for each tool in order, a `dict` is
appended unchanged, an object with `to_schema` has `to_schema()` invoked and
the result appended, and anything else raises
`TypeError("Unsupported tool type: ...")`. -/
def convert_tools : List ToolValue → Except ClientError (List (List (String × JValue)))
  | [] => .ok []
  | t :: rest =>
    match t with
    | .dict d => (convert_tools rest).map (fun l => d :: l)
    | .exportable _ s => (convert_tools rest).map (fun l => s :: l)
    | .other n => .error (.unsupportedToolType n)

/-- Spec-side description of converting one supported tool: a plain mapping
passes through unchanged; a schema-exportable object contributes its
`to_schema()` result.  (Junk value on the unsupported case, which the
theorem's `find?` guard excludes.) -/
def specToolSchema : ToolValue → List (String × JValue)
  | .dict d => d
  | .exportable _ s => s
  | .other _ => []

/-- Whether a tool value is neither a mapping nor schema-exportable. -/
def ToolValue.isUnsupported : ToolValue → Bool
  | .other _ => true
  | _ => false

/-! ## `AnthropicClient.convert_messages`

A canonical `Message` list is turned into `(system_message, api_messages)`:
the content of a `system`-role message is put aside as the system instruction;
`user`/`assistant` messages become wire messages (an assistant message with a
truthy `thinking` or truthy `tool_calls` becomes a content-block message);
a `tool`-role message becomes a wire message holding one `tool_result` block.
Wire messages and blocks are `JValue.obj` dicts in the insertion order the
code uses. -/

/-- `str | None` rendered as a JSON value (`None` → `null`). -/
def optStrToJ : Option String → JValue
  | none => .null
  | some s => .str s

/-- The `tool_use` content block built for one `ToolCall`:
`\x7b"type": "tool_use", "id": ..., "name": ..., "input": ...\x7d`. -/
def toolUseBlock (tc : ToolCall) : JValue :=
  .obj [("type", .str "tool_use"), ("id", .str tc.id),
        ("name", .str tc.function.name), ("input", .obj tc.function.arguments)]

/-- The `content_blocks` list built for an assistant message whose `thinking`
or `tool_calls` is truthy: a thinking block if `msg.thinking` is truthy, then
a text block if `msg.content` is truthy, then one `tool_use` block per tool
call in order. -/
def assistantContentBlocks (msg : Message) : List JValue :=
  (if optStrTruthy msg.thinking then
      [JValue.obj [("type", .str "thinking"), ("thinking", .str (msg.thinking.getD ""))]]
    else [])
  ++ (if msg.content.truthy then
        [JValue.obj [("type", .str "text"), ("text", msg.content)]]
      else [])
  ++ (if optListTruthy msg.tool_calls then
        (msg.tool_calls.getD []).map toolUseBlock
      else [])

/-- The wire message `convert_messages` appends for one non-`system` message:
`user`/`assistant` messages pass role and content through (assistant messages
with truthy `thinking` or `tool_calls` get the block list instead), a `tool`
message becomes a one-block `tool_result` message, and a message of any other
role matches no branch and appends nothing (`none`). -/
def wireOfMessage (msg : Message) : Option JValue :=
  if msg.role = "user" ∨ msg.role = "assistant" then
    if msg.role = "assistant" ∧
        (optStrTruthy msg.thinking = true ∨ optListTruthy msg.tool_calls = true) then
      some (.obj [("role", .str "assistant"),
                  ("content", .arr (assistantContentBlocks msg))])
    else
      some (.obj [("role", .str msg.role), ("content", msg.content)])
  else if msg.role = "tool" then
    some (.obj [("role", .str "tool"),
                ("content", .arr [JValue.obj
                  [("type", .str "tool_result"),
                   ("tool_use_id", optStrToJ msg.tool_call_id),
                   ("content", msg.content)]])])
  else
    none

/-- One iteration of the `convert_messages` loop over the state
`(system_message, api_messages)`: a `system` message stores its content and
`continue`s; every other message appends its wire form (if any). -/
def convertStep (st : Option JValue × List JValue) (msg : Message) :
    Option JValue × List JValue :=
  if msg.role = "system" then (some msg.content, st.2)
  else
    match wireOfMessage msg with
    | some w => (st.1, st.2 ++ [w])
    | none => st

/-- `AnthropicClient.convert_messages`: fold the loop over the messages,
starting from `system_message = None` and `api_messages = []`. -/
def convert_messages (messages : List Message) : Option JValue × List JValue :=
  messages.foldl convertStep (none, [])

/-! ## `AnthropicClient._parse_response`

The wire response carries a list of typed content blocks (the provider SDK's
discriminated union: `text`, `thinking`, `tool_use`, or some other kind), an
optional usage record and an optional stop reason. -/

/-- A content block of the provider's wire response.  `other` stands for any
block whose `type` tag is none of the three the code recognizes. -/
inductive ContentBlock where
  | text (text : String) : ContentBlock
  | thinking (thinking : String) : ContentBlock
  | tool_use (id : String) (name : String) (input : List (String × JValue)) : ContentBlock
  | other (type : String) : ContentBlock

/-- Whether a wire block is of one of the kinds `_parse_response` recognizes
(`text`, `thinking`, `tool_use`). -/
def ContentBlock.isRecognized : ContentBlock → Bool
  | .other _ => false
  | _ => true

/-- The wire response's `usage` record: `input_tokens` / `output_tokens` may
each be an int or `None` (the code guards with `or 0`).  `total_tokens` is a
total the raw payload may claim; the client code never reads it. -/
structure WireUsage where
  input_tokens : Option Nat
  output_tokens : Option Nat
  total_tokens : Option Nat

/-- The provider's wire response (`anthropic.types.Message`): content blocks,
optional usage, optional stop reason. -/
structure WireResponse where
  content : List ContentBlock
  usage : Option WireUsage
  stop_reason : Option String

/-- One iteration of the `_parse_response` loop over the state
`(text_content, thinking_content, tool_calls)`: a `text` block is
concatenated onto `text_content`, a `thinking` block overwrites
`thinking_content`, a `tool_use` block appends a `ToolCall`, and any other
block kind matches no branch and leaves the state unchanged. -/
def parseStep (st : String × String × List ToolCall) (b : ContentBlock) :
    String × String × List ToolCall :=
  match b with
  | .text s => (st.1 ++ s, st.2.1, st.2.2)
  | .thinking s => (st.1, s, st.2.2)
  | .tool_use i n inp =>
      (st.1, st.2.1, st.2.2 ++ [{ id := i, type := "function",
                                  function := { name := n, arguments := inp } }])
  | .other _ => st

/-- `response.stop_reason or "stop"`: Python `or` falls back on `None` and on
the empty string. -/
def stopReasonOr (o : Option String) : String :=
  match o with
  | some s => if s = "" then "stop" else s
  | none => "stop"

/-- `AnthropicClient._parse_response`: fold the block loop, then assemble the
`LLMResponse` — empty `thinking_content` and empty `tool_calls` collapse to
`None`, and `total_tokens` is recomputed as `input + output` with `or 0`
guards. -/
def parse_response (r : WireResponse) : LLMResponse :=
  let st := r.content.foldl parseStep ("", "", [])
  { content := st.1
    thinking := if st.2.1 = "" then none else some st.2.1
    tool_calls := if st.2.2.isEmpty then none else some st.2.2
    finish_reason := stopReasonOr r.stop_reason
    usage :=
      match r.usage with
      | some u => some { prompt_tokens := u.input_tokens.getD 0
                         completion_tokens := u.output_tokens.getD 0
                         total_tokens := u.input_tokens.getD 0 + u.output_tokens.getD 0 }
      | none => none }

/-! Spec-side descriptions of `_parse_response`'s three accumulations, written
from the spec's words and compared with the code's fold in the theorems. -/

/-- The concatenation of the text of all `text` blocks in encounter order. -/
def textBlocksConcat : List ContentBlock → String
  | [] => ""
  | .text s :: rest => s ++ textBlocksConcat rest
  | _ :: rest => textBlocksConcat rest

/-- The text carried by a `thinking` block, if it is one. -/
def thinkingTextOf : ContentBlock → Option String
  | .thinking s => some s
  | _ => none

/-- The text of the last `thinking` block, if any occurs. -/
def lastThinkingText (l : List ContentBlock) : Option String :=
  (l.filterMap thinkingTextOf).getLast?

/-- One `ToolCall` per `tool_use` block in encounter order, with the block's
id, type `"function"`, and the block's name and input mapping. -/
def toolUseCalls (l : List ContentBlock) : List ToolCall :=
  l.filterMap fun b =>
    match b with
    | .tool_use i n inp => some { id := i, type := "function",
                                  function := { name := n, arguments := inp } }
    | _ => none

/-! ## `LLMClient.__init__` (`llm_wrapper.py`)

The facade first runs `api_base = api_base.replace("/anthropic", "")` — which
removes every occurrence of the substring, Python's `str.replace` — then two
independent `if` statements assign `full_api_base` for the two known
providers, then `self.api_base = full_api_base` is executed.  For any other
provider value `full_api_base` was never assigned, so that line raises
`UnboundLocalError` and the final `else: raise ValueError("Unsupported
provider: ...")` of the client-selection chain is never reached. -/

/-- Whether `pat` is a prefix of `s` (character-wise). -/
def matchesAt : List Char → List Char → Bool
  | [], _ => true
  | _ :: _, [] => false
  | p :: ps, c :: cs => p == c && matchesAt ps cs

/-- Python `str.replace` on character lists, fuelled for structural
recursion: scan left to right, replacing each non-overlapping occurrence of
`pat` by `sub`.  Fuel at least the list's length makes the fuel guard
unreachable. -/
def pyReplaceAux (pat sub : List Char) : Nat → List Char → List Char
  | 0, s => s
  | _ + 1, [] => []
  | n + 1, c :: rest =>
    if !pat.isEmpty && matchesAt pat (c :: rest) then
      sub ++ pyReplaceAux pat sub n ((c :: rest).drop pat.length)
    else
      c :: pyReplaceAux pat sub n rest

/-- Python `s.replace(pat, sub)` for nonempty `pat`: every occurrence of the
substring `pat` in `s` is replaced by `sub`, left to right. -/
def pyReplace (s pat sub : String) : String :=
  String.mk (pyReplaceAux pat.data sub.data s.data.length s.data)

/-- Python `s.rstrip("/")`: remove all trailing `/` characters. -/
def pyRstripSlash (s : String) : String :=
  String.mk ((s.data.reverse.dropWhile (fun c => c == '/')).reverse)

/-- The value passed as the `provider` argument: one of the two
`LLMProvider` enum members, or any other Python value (carrying what the
f-string `f"...\x7bprovider\x7d"` would show for it). -/
inductive ProviderValue where
  | anthropic : ProviderValue
  | openai : ProviderValue
  | other (shown : String) : ProviderValue
deriving DecidableEq

/-- What `f"\x7bprovider\x7d"` shows for a provider value. -/
def providerShown : ProviderValue → String
  | .anthropic => "LLMProvider.ANTHROPIC"
  | .openai => "LLMProvider.OPENAI"
  | .other s => s

/-- Which underlying Provider Client class the facade instantiates. -/
inductive ClientKind where
  | anthropicClient : ClientKind
  | openaiClient : ClientKind
deriving DecidableEq

/-- The facade state after a successful `LLMClient.__init__`. -/
structure LLMClientState where
  provider : ProviderValue
  api_base : String
  clientKind : ClientKind

/-- How `LLMClient.__init__` fails. -/
inductive InitError where
  | unboundLocalError (varName : String) : InitError
  | unsupportedProvider (shown : String) : InitError
deriving DecidableEq

/-- `LLMClient.__init__`: remove every `"/anthropic"` occurrence from the
base, run the two independent provider `if`s that assign `full_api_base`,
execute `self.api_base = full_api_base` (raising `UnboundLocalError` when
neither `if` fired), then select the Provider Client, with the dead
`else: raise ValueError("Unsupported provider: ...")` branch last. -/
def llm_client_init (provider : ProviderValue) (api_base : String) :
    Except InitError LLMClientState :=
  let base := pyReplace api_base "/anthropic" ""
  let full1 : Option String :=
    if provider = ProviderValue.anthropic then some (pyRstripSlash base ++ "/anthropic")
    else none
  let full2 : Option String :=
    if provider = ProviderValue.openai then some (pyRstripSlash base ++ "/v1")
    else full1
  match full2 with
  | none => .error (.unboundLocalError "full_api_base")
  | some full =>
    if provider = ProviderValue.anthropic then
      .ok { provider := provider, api_base := full, clientKind := .anthropicClient }
    else if provider = ProviderValue.openai then
      .ok { provider := provider, api_base := full, clientKind := .openaiClient }
    else
      .error (.unsupportedProvider (providerShown provider))

/-- Endpoint derivation as the claim words it: strip an existing
`"/anthropic"` suffix if present, trim a trailing slash, then append
`"/anthropic"` (anthropic) or `"/v1"` (openai). -/
def claimEndpoint (provider : ProviderValue) (base : String) : String :=
  let stripped :=
    if matchesAt "/anthropic".data.reverse base.data.reverse then
      String.mk (base.data.take (base.data.length - "/anthropic".data.length))
    else base
  let trimmed := pyRstripSlash stripped
  match provider with
  | .anthropic => trimmed ++ "/anthropic"
  | .openai => trimmed ++ "/v1"
  | .other _ => trimmed

/-! ## Supporting lemmas -/

/-- The last element as given by `getLast?` is a member of the list. -/
lemma mem_of_getLast?_eq {α : Type} {l : List α} {a : α} (h : l.getLast? = some a) :
    a ∈ l := by
  have ha : a ∈ l.getLast? := by simp [Option.mem_def, h]
  obtain ⟨hne, rfl⟩ := List.mem_getLast?_eq_getLast ha
  exact List.getLast_mem hne

/-- `getLast?` of a cons, phrased through `getD`. -/
lemma getLast?_cons_getD {α : Type} (a : α) (l : List α) :
    (a :: l).getLast? = some ((l.getLast?).getD a) := by
  induction l generalizing a with
  | nil => rfl
  | cons b m ih => rw [List.getLast?_cons_cons, ih b]; rfl

/-- `filterMap` keeps the length when the function hits on every element. -/
lemma length_filterMap_of_isSome {α β : Type} (f : α → Option β) :
    ∀ l : List α, (∀ x ∈ l, (f x).isSome) →
      (l.filterMap f).length = l.length := by
  intro l
  induction l with
  | nil => intro _; rfl
  | cons a r ih =>
    intro h
    have ha := h a (by simp)
    cases hf : f a with
    | none => rw [hf] at ha; simp at ha
    | some b =>
      rw [List.filterMap_cons, hf]
      simp [ih (fun x hx => h x (by simp [hx]))]

/-! ## C6 — `convert_tools` -/

/-- C6.  `convert_tools` maps each input tool in order: a plain mapping
passes through unchanged, a schema-exportable tool contributes its
`to_schema()` result, and the first value that is neither makes the call
fail with an `UnsupportedToolType`-kind error carrying that value's declared
type; the output preserves input order, and the failure case occurs exactly
when some input is unsupported. -/
theorem convert_tools_passthrough_export_or_fail (tools : List ToolValue) :
    convert_tools tools =
      match tools.find? ToolValue.isUnsupported with
      | some t => .error (.unsupportedToolType t.typeName)
      | none => .ok (tools.map specToolSchema) := by
  induction tools with
  | nil => rfl
  | cons t rest ih =>
    cases t with
    | dict d =>
      rw [show convert_tools (ToolValue.dict d :: rest)
            = (convert_tools rest).map (fun l => d :: l) from rfl, ih]
      rw [List.find?_cons_of_neg _ (by simp [ToolValue.isUnsupported])]
      cases rest.find? ToolValue.isUnsupported <;> simp [specToolSchema, Except.map]
    | exportable n s =>
      rw [show convert_tools (ToolValue.exportable n s :: rest)
            = (convert_tools rest).map (fun l => s :: l) from rfl, ih]
      rw [List.find?_cons_of_neg _ (by simp [ToolValue.isUnsupported])]
      cases rest.find? ToolValue.isUnsupported <;> simp [specToolSchema, Except.map]
    | other n =>
      rw [List.find?_cons_of_pos _ (by simp [ToolValue.isUnsupported])]
      rfl

/-! ## `convert_messages` fold lemmas -/

/-- A `system`-role message produces no wire message. -/
lemma wireOfMessage_system {m : Message} (h : m.role = "system") :
    wireOfMessage m = none := by
  simp [wireOfMessage, h]

/-- The wire-message list accumulated by the loop: each message appends
`wireOfMessage` of itself (nothing for `system` or unknown roles). -/
lemma foldl_convertStep_snd :
    ∀ (msgs : List Message) (st : Option JValue × List JValue),
      (msgs.foldl convertStep st).2 = st.2 ++ msgs.filterMap wireOfMessage := by
  intro msgs
  induction msgs with
  | nil => intro st; simp
  | cons m rest ih =>
    intro st
    rw [List.foldl_cons, ih, List.filterMap_cons]
    by_cases h : m.role = "system"
    · rw [wireOfMessage_system h]
      simp [convertStep, h]
    · cases hw : wireOfMessage m <;> simp [convertStep, h, hw]

/-- Folding over messages none of which is `system`-role leaves the system
slot unchanged. -/
lemma foldl_convertStep_fst_nosys :
    ∀ (msgs : List Message), (∀ m ∈ msgs, m.role ≠ "system") →
      ∀ st : Option JValue × List JValue, (msgs.foldl convertStep st).1 = st.1 := by
  intro msgs
  induction msgs with
  | nil => intro _ st; rfl
  | cons m rest ih =>
    intro h st
    rw [List.foldl_cons, ih (fun x hx => h x (List.mem_cons_of_mem _ hx))]
    have hm : m.role ≠ "system" := h m (by simp)
    cases hw : wireOfMessage m <;> simp [convertStep, hm, hw]

/-- Every message of a schema-listed non-`system` role yields a wire
message. -/
lemma wireOfMessage_isSome {m : Message}
    (h : m.role = "user" ∨ m.role = "assistant" ∨ m.role = "tool") :
    (wireOfMessage m).isSome := by
  rcases h with h | h | h
  · simp [wireOfMessage, h]
  · by_cases hc : optStrTruthy m.thinking = true ∨ optListTruthy m.tool_calls = true <;>
      simp [wireOfMessage, h, hc]
  · simp [wireOfMessage, h]

/-! ## C3 — system extraction -/

/-- C3.  For a valid message sequence with exactly one `system`-role message,
`convert_messages` returns that message's content as the system instruction,
no wire message is produced for it, and the wire-message sequence has exactly
one entry per remaining message, in order. -/
theorem convert_messages_system_extraction
    (l1 l2 : List Message) (sysMsg : Message)
    (hsys : sysMsg.role = "system")
    (h1 : ∀ m ∈ l1, m.role ≠ "system") (h2 : ∀ m ∈ l2, m.role ≠ "system")
    (hvalid : ∀ m ∈ l1 ++ l2,
      m.role = "user" ∨ m.role = "assistant" ∨ m.role = "tool") :
    (convert_messages (l1 ++ sysMsg :: l2)).1 = some sysMsg.content ∧
    (convert_messages (l1 ++ sysMsg :: l2)).2 = (l1 ++ l2).filterMap wireOfMessage ∧
    ((l1 ++ l2).filterMap wireOfMessage).length = (l1 ++ l2).length := by
  have hstep : ∀ st : Option JValue × List JValue,
      convertStep st sysMsg = (some sysMsg.content, st.2) := by
    intro st; simp [convertStep, hsys]
  refine ⟨?_, ?_, ?_⟩
  · unfold convert_messages
    rw [List.foldl_append, List.foldl_cons, hstep]
    exact foldl_convertStep_fst_nosys l2 h2 _
  · unfold convert_messages
    rw [List.foldl_append, List.foldl_cons, hstep, foldl_convertStep_snd,
        foldl_convertStep_snd]
    simp [List.filterMap_append]
  · exact length_filterMap_of_isSome wireOfMessage (l1 ++ l2)
      (fun m hm => wireOfMessage_isSome (hvalid m hm))

/-! ## C1 — assistant messages with thinking and/or tool calls -/

/-- C1.  An assistant message carrying a (truthy) thinking trace and/or
(truthy) tool calls contributes exactly one wire message, whose content is
the ordered block sequence: a thinking block first (if thinking is present),
then a text block (only if the content is non-empty), then one `tool_use`
block per tool call in the original order, each carrying that call's id,
function name and argument mapping. -/
theorem convert_messages_assistant_composite
    (pre : List Message) (msg : Message)
    (hrole : msg.role = "assistant")
    (hcarry : optStrTruthy msg.thinking = true ∨ optListTruthy msg.tool_calls = true) :
    (convert_messages (pre ++ [msg])).2 =
      (convert_messages pre).2 ++
      [JValue.obj [("role", .str "assistant"),
        ("content", .arr (
          (if optStrTruthy msg.thinking then
            [JValue.obj [("type", .str "thinking"),
                         ("thinking", .str (msg.thinking.getD ""))]]
           else [])
          ++ (if msg.content.truthy then
                [JValue.obj [("type", .str "text"), ("text", msg.content)]]
              else [])
          ++ (msg.tool_calls.getD []).map toolUseBlock))]] := by
  have htools : (if optListTruthy msg.tool_calls then
        (msg.tool_calls.getD []).map toolUseBlock else [])
      = (msg.tool_calls.getD []).map toolUseBlock := by
    cases h : msg.tool_calls with
    | none => simp [optListTruthy]
    | some l => cases l <;> simp [optListTruthy]
  have hw : wireOfMessage msg =
      some (.obj [("role", .str "assistant"),
                  ("content", .arr (assistantContentBlocks msg))]) := by
    rw [wireOfMessage, if_pos (Or.inr hrole), if_pos ⟨hrole, hcarry⟩]
  unfold convert_messages
  rw [List.foldl_append, List.foldl_cons, List.foldl_nil]
  rw [show convertStep (pre.foldl convertStep (none, [])) msg
        = ((pre.foldl convertStep (none, [])).1,
           (pre.foldl convertStep (none, [])).2
             ++ [JValue.obj [("role", .str "assistant"),
                 ("content", .arr (assistantContentBlocks msg))]]) by
    simp [convertStep, hw, hrole]]
  rw [assistantContentBlocks, htools]

/-! ## C4 — tool-result messages -/

/-- C4.  A `tool`-role message with `tool_call_id = t` and content `c`
contributes exactly one wire message whose content is the one-element block
sequence holding a single `tool_result` block with `tool_use_id = t` and
`content = c`. -/
theorem convert_messages_tool_result
    (pre : List Message) (msg : Message) (t : String) (c : JValue)
    (hrole : msg.role = "tool") (hid : msg.tool_call_id = some t)
    (hc : msg.content = c) :
    (convert_messages (pre ++ [msg])).2 =
      (convert_messages pre).2 ++
      [JValue.obj [("role", .str "tool"),
        ("content", .arr [JValue.obj
          [("type", .str "tool_result"),
           ("tool_use_id", .str t),
           ("content", c)]])]] := by
  have hw : wireOfMessage msg =
      some (.obj [("role", .str "tool"),
        ("content", .arr [JValue.obj
          [("type", .str "tool_result"),
           ("tool_use_id", .str t),
           ("content", c)]])]) := by
    simp [wireOfMessage, hrole, hid, hc, optStrToJ]
  unfold convert_messages
  rw [List.foldl_append, List.foldl_cons, List.foldl_nil]
  simp [convertStep, hrole, hw]

/-! ## `_parse_response` fold lemma -/

/-- The block loop of `_parse_response`, characterized: text concatenates in
order, the last thinking block wins (falling back on the incoming
accumulator), and tool calls append in encounter order. -/
lemma foldl_parseStep :
    ∀ (l : List ContentBlock) (t th : String) (tc : List ToolCall),
      l.foldl parseStep (t, th, tc) =
        (t ++ textBlocksConcat l, (lastThinkingText l).getD th, tc ++ toolUseCalls l) := by
  intro l
  induction l with
  | nil =>
    intro t th tc
    simp [textBlocksConcat, lastThinkingText, toolUseCalls]
  | cons b rest ih =>
    intro t th tc
    cases b with
    | text s =>
      rw [List.foldl_cons]
      show rest.foldl parseStep (t ++ s, th, tc) = _
      rw [ih]
      simp [textBlocksConcat, lastThinkingText, thinkingTextOf, toolUseCalls,
            String.append_assoc]
    | thinking s =>
      rw [List.foldl_cons]
      show rest.foldl parseStep (t, s, tc) = _
      rw [ih]
      have : lastThinkingText (ContentBlock.thinking s :: rest)
          = some ((lastThinkingText rest).getD s) := by
        simp only [lastThinkingText, List.filterMap_cons, thinkingTextOf]
        exact getLast?_cons_getD s (rest.filterMap thinkingTextOf)
      rw [this]
      simp [textBlocksConcat, toolUseCalls, thinkingTextOf]
    | tool_use i n inp =>
      rw [List.foldl_cons]
      show rest.foldl parseStep
          (t, th, tc ++ [{ id := i, type := "function",
                           function := { name := n, arguments := inp } }]) = _
      rw [ih]
      simp [textBlocksConcat, lastThinkingText, thinkingTextOf, toolUseCalls,
            List.filterMap_cons]
    | other s =>
      rw [List.foldl_cons]
      show rest.foldl parseStep (t, th, tc) = _
      rw [ih]
      simp [textBlocksConcat, lastThinkingText, thinkingTextOf, toolUseCalls,
            List.filterMap_cons]

/-! ## C2 — `_parse_response` assembly (corrected: empty last thinking text
collapses to `None`) -/

/-- Counterexample to C2 as stated: a response whose single (hence last)
thinking block has text `""` parses to `thinking = none`, not to the last
thinking block's text `some ""`. -/
theorem parse_response_thinking_empty_counterexample :
    lastThinkingText [ContentBlock.thinking ""] = some "" ∧
    (parse_response { content := [ContentBlock.thinking ""],
                      usage := none, stop_reason := none }).thinking = none ∧
    (none : Option String) ≠ some "" := by
  refine ⟨rfl, rfl, by simp⟩

/-- C2 (amended).  `_parse_response` returns `content` equal to the
concatenation of all text blocks in encounter order; `thinking` equal to the
text of the last thinking block when one occurs and that text is non-empty,
and `None` otherwise; and `tool_calls` listing one `ToolCall` per `tool_use`
block in encounter order — block id, type `"function"`, and a `FunctionCall`
with the block's name and input mapping — with an empty list collapsed to
`None`. -/
theorem parse_response_assembly (r : WireResponse) :
    (parse_response r).content = textBlocksConcat r.content ∧
    (parse_response r).thinking =
      (lastThinkingText r.content).bind (fun s => if s = "" then none else some s) ∧
    (parse_response r).tool_calls =
      (if (toolUseCalls r.content).isEmpty then none
       else some (toolUseCalls r.content)) := by
  refine ⟨?_, ?_, ?_⟩
  · show (r.content.foldl parseStep ("", "", [])).1 = _
    rw [foldl_parseStep]
    simp
  · show (if (r.content.foldl parseStep ("", "", [])).2.1 = "" then none
          else some (r.content.foldl parseStep ("", "", [])).2.1) = _
    rw [foldl_parseStep]
    cases h : lastThinkingText r.content with
    | none => simp
    | some s => simp [Option.getD]
  · show (if (r.content.foldl parseStep ("", "", [])).2.2.isEmpty then none
          else some (r.content.foldl parseStep ("", "", [])).2.2) = _
    rw [foldl_parseStep]
    simp

/-! ## C5 — usage counters -/

/-- C5.  When the wire response carries usage counters `input_tokens = p` and
`output_tokens = c`, the parsed `TokenUsage` is
`(prompt_tokens = p, completion_tokens = c, total_tokens = p + c)`,
whatever total the raw payload claims. -/
theorem parse_response_usage_recomputed (r : WireResponse) (u : WireUsage)
    (p c : Nat) (hu : r.usage = some u)
    (hp : u.input_tokens = some p) (hc : u.output_tokens = some c) :
    (parse_response r).usage =
      some { prompt_tokens := p, completion_tokens := c, total_tokens := p + c } := by
  simp [parse_response, hu, hp, hc]

/-- Witness for C5 at `input_tokens = 10`, `output_tokens = 5`, with the raw
payload claiming `total_tokens = 999`. -/
theorem parse_response_usage_recomputed_witness :
    (parse_response { content := [],
                      usage := some { input_tokens := some 10,
                                      output_tokens := some 5,
                                      total_tokens := some 999 },
                      stop_reason := some "end_turn" }).usage =
      some { prompt_tokens := 10, completion_tokens := 5, total_tokens := 15 } :=
  parse_response_usage_recomputed _ _ 10 5 rfl rfl rfl

/-! ## C7 — unrecognized block kinds are dropped -/

/-- Unrecognized blocks leave the loop state untouched, so the loop over the
recognized sublist computes the same state. -/
lemma foldl_parseStep_filter :
    ∀ (l : List ContentBlock) (st : String × String × List ToolCall),
      (l.filter ContentBlock.isRecognized).foldl parseStep st = l.foldl parseStep st := by
  intro l
  induction l with
  | nil => intro st; rfl
  | cons b rest ih =>
    intro st
    cases b with
    | text s => simp [List.filter_cons, ContentBlock.isRecognized, ih]
    | thinking s => simp [List.filter_cons, ContentBlock.isRecognized, ih]
    | tool_use i n inp => simp [List.filter_cons, ContentBlock.isRecognized, ih]
    | other s => simp [List.filter_cons, ContentBlock.isRecognized, parseStep, ih]

/-- C7.  `_parse_response` never fails on a content block whose type is not
one of `text` / `thinking` / `tool_use` — such blocks are dropped, and the
result equals parsing the same response with those blocks removed.  (The
embedding is a total function, so totality is by construction.) -/
theorem parse_response_ignores_unrecognized (r : WireResponse) :
    parse_response r =
      parse_response { content := r.content.filter ContentBlock.isRecognized,
                       usage := r.usage, stop_reason := r.stop_reason } := by
  simp only [parse_response, foldl_parseStep_filter]

/-! ## C10 — all-empty thinking collapses to `None` -/

/-- C10.  If every thinking block of the response (if any) has empty text,
the parsed `thinking` is `None` — an empty accumulated thinking string is
collapsed to absent, not returned as `""`. -/
theorem parse_response_all_empty_thinking_none (r : WireResponse)
    (h : ∀ s, ContentBlock.thinking s ∈ r.content → s = "") :
    (parse_response r).thinking = none := by
  show (if (r.content.foldl parseStep ("", "", [])).2.1 = "" then none
        else some (r.content.foldl parseStep ("", "", [])).2.1) = _
  rw [foldl_parseStep]
  cases hl : lastThinkingText r.content with
  | none => simp
  | some s =>
    have hs : s = "" := by
      have hmem := mem_of_getLast?_eq hl
      rw [List.mem_filterMap] at hmem
      obtain ⟨b, hb, hfb⟩ := hmem
      cases b with
      | thinking s0 =>
        have : s0 = s := by simpa [thinkingTextOf] using hfb
        exact this ▸ h s0 hb
      | text s0 => exact absurd hfb (by simp [thinkingTextOf])
      | tool_use i n inp => exact absurd hfb (by simp [thinkingTextOf])
      | other s0 => exact absurd hfb (by simp [thinkingTextOf])
    simp [hs]

/-- Witness for C10: a response with one text block and one empty thinking
block parses to `thinking = none`. -/
theorem parse_response_all_empty_thinking_none_witness :
    (parse_response { content := [ContentBlock.text "hi", ContentBlock.thinking ""],
                      usage := none, stop_reason := some "end_turn" }).thinking = none :=
  parse_response_all_empty_thinking_none _ (by
    intro s hs
    simp only [List.mem_cons, List.not_mem_nil, or_false] at hs
    simpa using hs)

/-! ## C8 — endpoint derivation (corrected: every occurrence of
`"/anthropic"` is removed, not only a suffix) -/

/-- Counterexample to C8 as stated: on the base
`"https://api.example.com/anthropic/v2"` the facade removes the interior
`"/anthropic"` occurrence and yields `"https://api.example.com/v2/anthropic"`,
while suffix-stripping as the claim words it would yield
`"https://api.example.com/anthropic/v2/anthropic"`. -/
theorem llm_client_init_endpoint_counterexample :
    llm_client_init ProviderValue.anthropic "https://api.example.com/anthropic/v2"
      = .ok { provider := ProviderValue.anthropic,
              api_base := "https://api.example.com/v2/anthropic",
              clientKind := ClientKind.anthropicClient } ∧
    claimEndpoint ProviderValue.anthropic "https://api.example.com/anthropic/v2"
      = "https://api.example.com/anthropic/v2/anthropic" ∧
    ("https://api.example.com/v2/anthropic" : String)
      ≠ "https://api.example.com/anthropic/v2/anthropic" := by
  refine ⟨rfl, rfl, by decide⟩

/-- C8 (amended).  The facade derives the endpoint by removing every
occurrence of the substring `"/anthropic"` from the base URL (Python
`str.replace`), trimming a trailing slash, then appending `"/anthropic"`
for the anthropic provider or `"/v1"` for openai.  In particular, base
`"https://api.example.com/anthropic"` yields
`"https://api.example.com/anthropic"` for anthropic and
`"https://api.example.com/v1"` for openai. -/
theorem llm_client_init_endpoint (base : String) :
    llm_client_init ProviderValue.anthropic base
      = .ok { provider := ProviderValue.anthropic,
              api_base := pyRstripSlash (pyReplace base "/anthropic" "") ++ "/anthropic",
              clientKind := ClientKind.anthropicClient } ∧
    llm_client_init ProviderValue.openai base
      = .ok { provider := ProviderValue.openai,
              api_base := pyRstripSlash (pyReplace base "/anthropic" "") ++ "/v1",
              clientKind := ClientKind.openaiClient } ∧
    llm_client_init ProviderValue.anthropic "https://api.example.com/anthropic"
      = .ok { provider := ProviderValue.anthropic,
              api_base := "https://api.example.com/anthropic",
              clientKind := ClientKind.anthropicClient } ∧
    llm_client_init ProviderValue.openai "https://api.example.com/anthropic"
      = .ok { provider := ProviderValue.openai,
              api_base := "https://api.example.com/v1",
              clientKind := ClientKind.openaiClient } :=
  ⟨rfl, rfl, rfl, rfl⟩

/-! ## C9 — unknown provider (code bug: `UnboundLocalError` pre-empts the
`ValueError("Unsupported provider: ...")` branch) -/

/-- C9 (code evaluated at the failing inputs).  For any provider value
outside the known set, `LLMClient.__init__` does fail at construction time,
but with `UnboundLocalError` on `self.api_base = full_api_base` — neither
provider `if` assigned `full_api_base` — so the `raise
ValueError("Unsupported provider: ...")` branch is unreachable; for the two
known providers construction succeeds and selects the matching Provider
Client. -/
theorem llm_client_init_unknown_provider (base : String) :
    (∀ shown, llm_client_init (ProviderValue.other shown) base
      = .error (.unboundLocalError "full_api_base")) ∧
    (∀ shown e, llm_client_init (ProviderValue.other shown) base
      ≠ .error (.unsupportedProvider e)) ∧
    (∃ st, llm_client_init ProviderValue.anthropic base = .ok st ∧
      st.clientKind = ClientKind.anthropicClient) ∧
    (∃ st, llm_client_init ProviderValue.openai base = .ok st ∧
      st.clientKind = ClientKind.openaiClient) := by
  refine ⟨fun shown => rfl, fun shown e h => by simp [llm_client_init] at h,
          ⟨_, rfl, rfl⟩, ⟨_, rfl, rfl⟩⟩

/-! ## Witnesses -/

/-- Concrete tool call for the C1 witness:
`(id "1", name "f", arguments x ↦ 1)`. -/
def c1ToolCall : ToolCall :=
  { id := "1", type := "function",
    function := { name := "f", arguments := [("x", JValue.num 1)] } }

/-- Concrete assistant message for the C1 witness: `thinking = "T"`, empty
content, one tool call `c1ToolCall`. -/
def c1Msg : Message :=
  { role := "assistant", content := JValue.str "",
    thinking := some "T", tool_calls := some [c1ToolCall] }

/-- Witness for C1: `c1Msg` produces the single wire message
`[thinking(T), tool_use(id=1, name=f, input=(x: 1))]` — no text block, since
its content is empty. -/
theorem convert_messages_assistant_composite_witness :
    (convert_messages [c1Msg]).2
      = [JValue.obj [("role", JValue.str "assistant"),
          ("content", JValue.arr
            [JValue.obj [("type", JValue.str "thinking"),
                         ("thinking", JValue.str "T")],
             JValue.obj [("type", JValue.str "tool_use"), ("id", JValue.str "1"),
                         ("name", JValue.str "f"),
                         ("input", JValue.obj [("x", JValue.num 1)])]])]] := by
  have h := convert_messages_assistant_composite [] c1Msg rfl (Or.inl rfl)
  simpa [c1Msg, c1ToolCall, convert_messages, optStrTruthy, JValue.truthy,
         toolUseBlock] using h

/-- Concrete system message for the C3 witness. -/
def c3SysMsg : Message := { role := "system", content := JValue.str "S" }

/-- Concrete user message for the C3 witness. -/
def c3UserMsg : Message := { role := "user", content := JValue.str "hi" }

/-- Witness for C3: on `[system("S"), user("hi")]` the system slot is
`some "S"` and the wire sequence is the single user message. -/
theorem convert_messages_system_extraction_witness :
    (convert_messages [c3SysMsg, c3UserMsg]).1 = some (JValue.str "S") ∧
    (convert_messages [c3SysMsg, c3UserMsg]).2
      = [JValue.obj [("role", JValue.str "user"), ("content", JValue.str "hi")]] ∧
    (([] ++ [c3UserMsg]).filterMap wireOfMessage).length = ([] ++ [c3UserMsg]).length := by
  have h := convert_messages_system_extraction [] [c3UserMsg] c3SysMsg
    rfl (by simp) (by simp [c3UserMsg]) (by simp [c3UserMsg])
  exact h

/-- Concrete tool message for the C4 witness: `tool_call_id = "1"`, content
`"result"`. -/
def c4ToolMsg : Message :=
  { role := "tool", content := JValue.str "result", tool_call_id := some "1" }

/-- Witness for C4: `c4ToolMsg` produces the single wire message
`[tool_result(tool_use_id=1, content=result)]`. -/
theorem convert_messages_tool_result_witness :
    (convert_messages [c4ToolMsg]).2
      = [JValue.obj [("role", JValue.str "tool"),
          ("content", JValue.arr [JValue.obj
            [("type", JValue.str "tool_result"),
             ("tool_use_id", JValue.str "1"),
             ("content", JValue.str "result")]])]] := by
  have h := convert_messages_tool_result [] c4ToolMsg "1" (JValue.str "result")
    rfl rfl rfl
  exact h
